import Mathlib

/-!
A shallow embedding of `DeserializeDataTransform`
(`src/query/storages/fuse/src/operations/read/parquet_data_source_deserializer.rs`)
and of `MallocStatsTotalsTable`
(`src/query/storages/system/src/malloc_stats_totals_table.rs`).

Machine integers (`usize`, `u8`, `u64`) are modelled as `Nat`; the only cast in
the modelled code, `value as u64` in `set_value!`, is made explicit as `% 2^64`.
Fallible Rust calls returning `Result` are modelled with `Except Nat _`
(`Nat` standing for an opaque error payload), and `panic` / `unreachable!`
paths get their own constructor.
-/

deriving instance DecidableEq for Except

/-- Source type `PartInfoPtr`: an opaque reference-counted part descriptor. -/
abbrev PartInfoPtr := Nat

/-- One entry of `Vec<(usize, Vec<u8>)>`: the raw column chunks for one part. -/
abbrev ChunkCols := List (Nat × List Nat)

/-- Source type `common_base::base::ProgressValues`. -/
structure ProgressValues where
  rows : Nat
  bytes : Nat
deriving DecidableEq, Repr

/-- Source method `Progress::incr(&ProgressValues)`: the transform's view of the shared
atomic accumulator, as the running totals it has added. -/
def ProgressValues.incr (p v : ProgressValues) : ProgressValues :=
  ⟨p.rows + v.rows, p.bytes + v.bytes⟩

/-- Modelled from the spec: `DataSourceMeta`
(`operations/read/parquet_data_source.rs` is not among the provided sources;
the spec's SourceBatch carries a sequence of part descriptors and a matching
sequence of raw chunk sets, the chunk sets behind an `Option` that the
consumer `take()`s). Field names follow the uses
`source_meta.part` and `source_meta.data` in the deserializer. -/
structure DataSourceMeta where
  part : List PartInfoPtr
  data : Option (List ChunkCols)
deriving DecidableEq, Repr

/-- Modelled from the spec: the dynamically-typed block metadata payload,
as the closed tagged variant of design note §9 — either a `DataSourceMeta`
(the `downcast_mut::<DataSourceMeta>` succeeds) or some unrelated kind
(the downcast fails). -/
inductive BlockMeta where
  | source (m : DataSourceMeta)
  | other (kind : Nat)
deriving DecidableEq, Repr

/-- Source type `common_datablocks::DataBlock`, reduced to what the transform reads:
row count, memory size, and the optional attached metadata. -/
structure DataBlock where
  num_rows : Nat
  memory_size : Nat
  meta : Option BlockMeta
deriving DecidableEq, Repr

/-- Source method `DataBlock::take_meta`: removes and returns the attached metadata. -/
def DataBlock.take_meta (b : DataBlock) : Option BlockMeta × DataBlock :=
  (b.meta, { b with meta := none })

/-- Modelled from the spec (§4.1, §6): the input side of a port pair, as the
stage sees it — an optional incoming unit (itself a `Result`), the
need-data request flag, and the finished flag. -/
structure InputPort where
  data : Option (Except Nat DataBlock)
  need_data : Bool
  finished : Bool
deriving DecidableEq, Repr

def InputPort.has_data (p : InputPort) : Bool := p.data.isSome

def InputPort.set_need_data (p : InputPort) : InputPort := { p with need_data := true }

def InputPort.set_not_need_data (p : InputPort) : InputPort := { p with need_data := false }

def InputPort.finish (p : InputPort) : InputPort := { p with finished := true }

/-- Source method `pull_data`: removes and returns the incoming unit. -/
def InputPort.pull_data (p : InputPort) : Option (Except Nat DataBlock) × InputPort :=
  (p.data, { p with data := none })

/-- Modelled from the spec (§4.1, §6): the output side of a port pair — a
can-accept-push flag (cleared by a push, until the consumer drains), the
finished flag, and the log of every block pushed so far. -/
structure OutputPort where
  can_push : Bool
  pushed : List DataBlock
  finished : Bool
deriving DecidableEq, Repr

/-- Source method `push_data`: hands one block downstream; the port cannot accept another
push until the consumer retrieves it. -/
def OutputPort.push_data (p : OutputPort) (b : DataBlock) : OutputPort :=
  { p with pushed := p.pushed ++ [b], can_push := false }

def OutputPort.finish (p : OutputPort) : OutputPort := { p with finished := true }

/-- Source enum `common_pipeline_core::processors::processor::Event`. -/
inductive Event where
  | NeedData
  | NeedConsume
  | Sync
  | Async
  | Finished
deriving DecidableEq, Repr

/-- Outcome of one `event()` call: `Ok(event)`, an error propagated by `?`,
or an `unreachable!()` / `unwrap()` panic. -/
inductive EventResult where
  | ok (e : Event)
  | err (code : Nat)
  | panicked
deriving DecidableEq, Repr

/-- The mutable state of `DeserializeDataTransform`: the shared progress
accumulator (as the totals contributed), the two ports, the single optional
buffered output block, and the pending part/chunk vectors. The `BlockReader`
is stateless here; its `deserialize` is passed to `process` as a function. -/
structure DeserializeDataTransform where
  scan_progress : ProgressValues
  input : InputPort
  output : OutputPort
  output_data : Option DataBlock
  parts : List PartInfoPtr
  chunks : List ChunkCols
deriving DecidableEq, Repr

/-- Source method `Vec::pop`: returns the last element (if any) and the vector without it. -/
def popVec (l : List α) : Option α × List α := (l.getLast?, l.dropLast)

/-- Source method `DeserializeDataTransform::event`, line by line. -/
def DeserializeDataTransform.event (s : DeserializeDataTransform) :
    EventResult × DeserializeDataTransform :=
  if s.output.finished then
    (.ok .Finished, { s with input := s.input.finish })
  else if !s.output.can_push then
    (.ok .NeedConsume, { s with input := s.input.set_not_need_data })
  else
    match s.output_data with
    | some data_block =>
      (.ok .NeedConsume,
        { s with output_data := none, output := s.output.push_data data_block })
    | none =>
      if !s.chunks.isEmpty then
        (.ok .Sync,
          if !s.input.has_data then { s with input := s.input.set_need_data } else s)
      else if s.input.has_data then
        let pulled := s.input.pull_data
        let s1 := { s with input := pulled.2 }
        match pulled.1 with
        | none => (.panicked, s1)
        | some (.error e) => (.err e, s1)
        | some (.ok blk) =>
          match (blk.take_meta).1 with
          | some (.source sm) =>
            match sm.data with
            | some d => (.ok .Sync, { s1 with parts := sm.part, chunks := d })
            | none => (.panicked, s1)
          | some (.other _) => (.panicked, s1)
          | none => (.panicked, s1)
      else if s.input.finished then
        (.ok .Finished, { s with output := s.output.finish })
      else
        (.ok .NeedData, { s with input := s.input.set_need_data })

/-- Source method `DeserializeDataTransform::process`; `deser` is
`BlockReader::deserialize`. Both vectors are popped before the `zip`, as in
the source. -/
def DeserializeDataTransform.process
    (deser : PartInfoPtr → ChunkCols → Except Nat DataBlock)
    (s : DeserializeDataTransform) :
    Except Nat Unit × DeserializeDataTransform :=
  let pp := popVec s.parts
  let cp := popVec s.chunks
  let s1 := { s with parts := pp.2, chunks := cp.2 }
  match pp.1, cp.1 with
  | some part, some ch =>
    match deser part ch with
    | .error e => (.error e, s1)
    | .ok data_block =>
      (.ok (),
        { s1 with
          scan_progress :=
            s1.scan_progress.incr ⟨data_block.num_rows, data_block.memory_size⟩,
          output_data := some data_block })
  | some _, none => (.ok (), s1)
  | none, some _ => (.ok (), s1)
  | none, none => (.ok (), s1)

/-- One input batch as produced by the upstream reader: a part list and a
matching chunk list, to be attached as `DataSourceMeta`. -/
structure Batch where
  part : List PartInfoPtr
  chunks : List ChunkCols
deriving DecidableEq, Repr

/-- Modelled from the spec (§2, §6): the transport unit the upstream reader
sends for one batch — an otherwise empty block carrying the
`DataSourceMeta` payload. -/
def mkBatchBlock (b : Batch) : DataBlock :=
  ⟨0, 0, some (.source ⟨b.part, some b.chunks⟩)⟩

/-- The whole system the driver sees: the stage plus the queue of batches the
upstream reader has yet to send. -/
structure SysState where
  stage : DeserializeDataTransform
  pending : List Batch
deriving DecidableEq, Repr

/-- Modelled from the spec (§2 control flow): the driver loop. It polls
`event`; on `Sync` it runs `process`; on `NeedConsume` the downstream
consumer drains the port (re-enabling pushes); on `NeedData` the upstream
reader supplies the next batch, or finishes the input when none remain; on
`Finished` the run is complete. `deser` is a total decoder ("all decodes
succeeding"). Fuel-indexed; `none` means fuel ran out (or a failure
outcome, which this driver does not recover from). -/
def run (deser : PartInfoPtr → ChunkCols → DataBlock) :
    Nat → SysState → Option DeserializeDataTransform
  | 0, _ => none
  | fuel + 1, ss =>
    let r := ss.stage.event
    match r.1 with
    | .ok .Finished => some r.2
    | .ok .Sync =>
      let pr := DeserializeDataTransform.process (fun p c => .ok (deser p c)) r.2
      match pr.1 with
      | .ok _ => run deser fuel { ss with stage := pr.2 }
      | .error _ => none
    | .ok .NeedConsume =>
      run deser fuel
        { ss with stage := { r.2 with output := { r.2.output with can_push := true } } }
    | .ok .NeedData =>
      match ss.pending with
      | b :: rest =>
        run deser fuel
          { stage := { r.2 with input := { r.2.input with data := some (.ok (mkBatchBlock b)) } },
            pending := rest }
      | [] =>
        run deser fuel
          { stage := { r.2 with input := r.2.input.finish }, pending := [] }
    | .ok .Async => none
    | .err _ => none
    | .panicked => none

/-- The freshly created transform (`DeserializeDataTransform::create`), with
both ports idle and the downstream ready to accept a push. -/
def stInit : DeserializeDataTransform :=
  { scan_progress := ⟨0, 0⟩
    input := ⟨none, false, false⟩
    output := ⟨true, [], false⟩
    output_data := none
    parts := []
    chunks := [] }

/-- The progress delta `process` records for one decoded block. -/
def blockProg (d : DataBlock) : ProgressValues := ⟨d.num_rows, d.memory_size⟩

/-- Folding a run of per-block increments into the accumulator. -/
def incrAll (p : ProgressValues) (l : List DataBlock) : ProgressValues :=
  l.foldl (fun a d => a.incr (blockProg d)) p

/-- The blocks one batch decodes to, in emission order: the part/chunk pairs
are popped from the tails, so they are consumed in reverse arrival order. -/
def batchBlocks (deser : PartInfoPtr → ChunkCols → DataBlock) (b : Batch) :
    List DataBlock :=
  (b.part.reverse.zip b.chunks.reverse).map fun pc => deser pc.1 pc.2

/-- All blocks a batch sequence decodes to, in emission order. -/
def allBlocks (deser : PartInfoPtr → ChunkCols → DataBlock) (batches : List Batch) :
    List DataBlock :=
  (batches.map (batchBlocks deser)).flatten

/-- A quiescent stage state: nothing incoming, downstream ready, no buffered
block, with `pushed` the blocks emitted so far and `ps`/`cs` the pending
vectors. -/
def midState (prog : ProgressValues) (pushed : List DataBlock) (nd : Bool)
    (ps : List PartInfoPtr) (cs : List ChunkCols) : DeserializeDataTransform :=
  { scan_progress := prog
    input := ⟨none, nd, false⟩
    output := ⟨true, pushed, false⟩
    output_data := none
    parts := ps
    chunks := cs }

/-- The stage right after a `process` decoded block `d`: the block is
buffered, the popped vectors are `ps`/`cs`. -/
def postState (prog : ProgressValues) (pushed : List DataBlock)
    (ps : List PartInfoPtr) (cs : List ChunkCols) (d : DataBlock) :
    DeserializeDataTransform :=
  { scan_progress := prog
    input := ⟨none, true, false⟩
    output := ⟨true, pushed, false⟩
    output_data := some d
    parts := ps
    chunks := cs }

/-- The stage right after the upstream reader answered a `NeedData` with
batch `b`. -/
def suppliedState (prog : ProgressValues) (pushed : List DataBlock) (b : Batch) :
    DeserializeDataTransform :=
  { scan_progress := prog
    input := ⟨some (.ok (mkBatchBlock b)), true, false⟩
    output := ⟨true, pushed, false⟩
    output_data := none
    parts := []
    chunks := [] }

/-- The stage after the upstream reader finished the input (no batches
left), one `event` before termination. -/
def preFinal (prog : ProgressValues) (pushed : List DataBlock) :
    DeserializeDataTransform :=
  { scan_progress := prog
    input := ⟨none, true, true⟩
    output := ⟨true, pushed, false⟩
    output_data := none
    parts := []
    chunks := [] }

/-- The stage once `event` reported `Finished`: both ports finished. -/
def finalState (prog : ProgressValues) (pushed : List DataBlock) :
    DeserializeDataTransform :=
  { scan_progress := prog
    input := ⟨none, true, true⟩
    output := ⟨true, pushed, true⟩
    output_data := none
    parts := []
    chunks := [] }

/-- The blocks decoded from popped pairs, `rps`/`rcs` listed in pop order. -/
def drainB (deser : PartInfoPtr → ChunkCols → DataBlock)
    (rps : List PartInfoPtr) (rcs : List ChunkCols) : List DataBlock :=
  (rps.zip rcs).map fun pc => deser pc.1 pc.2

/-- A decoder instance for concrete executions: rows from the part id and the
chunk count, bytes from the part id. -/
def c1Deser : PartInfoPtr → ChunkCols → DataBlock :=
  fun p c => ⟨p + c.length, 10 * p, none⟩

/-- A concrete three-batch input sequence (the middle batch is empty). -/
def c1Batches : List Batch :=
  [⟨[1, 2], [[(0, [7])], [(1, [8])]]⟩, ⟨[], []⟩, ⟨[5], [[(2, [9, 9])]]⟩]

/-- A concrete state with pending work, used to exercise `event`'s Sync path. -/
def c2State : DeserializeDataTransform :=
  { scan_progress := ⟨0, 0⟩
    input := ⟨none, false, false⟩
    output := ⟨true, [], false⟩
    output_data := none
    parts := [4]
    chunks := [[(0, [1])]] }

/-- A state where the input port is finished, the pending lists and the
buffer are empty, but the output port cannot accept a push. -/
def c3State : DeserializeDataTransform :=
  { scan_progress := ⟨0, 0⟩
    input := ⟨none, false, true⟩
    output := ⟨false, [], false⟩
    output_data := none
    parts := []
    chunks := [] }

/-- A state where the input port is finished with everything drained and the
output port ready: the termination case of `event`. -/
def c3Good : DeserializeDataTransform :=
  { scan_progress := ⟨0, 0⟩
    input := ⟨none, false, true⟩
    output := ⟨true, [], false⟩
    output_data := none
    parts := []
    chunks := [] }

/-- A state with pending chunks but a blocked output port. -/
def c4State : DeserializeDataTransform :=
  { scan_progress := ⟨0, 0⟩
    input := ⟨none, false, false⟩
    output := ⟨false, [], false⟩
    output_data := none
    parts := [3]
    chunks := [[(0, [1])]] }

/-- A ready state with pending chunks, used to exercise the Sync answer. -/
def c4Good : DeserializeDataTransform :=
  { scan_progress := ⟨0, 0⟩
    input := ⟨none, false, false⟩
    output := ⟨true, [], false⟩
    output_data := none
    parts := [3]
    chunks := [[(0, [1])]] }

/-- A concrete state holding two part/chunk pairs, as in Scenario A. -/
def c6State : DeserializeDataTransform :=
  { scan_progress := ⟨2, 3⟩
    input := ⟨none, false, false⟩
    output := ⟨true, [], false⟩
    output_data := none
    parts := [1, 2]
    chunks := [[(0, [7])], [(1, [8])]] }

/-- A decoder that fails on part 2 and succeeds elsewhere. -/
def c7Deser : PartInfoPtr → ChunkCols → Except Nat DataBlock :=
  fun p c => if p = 2 then .error 42 else .ok ⟨p, c.length, none⟩

/-- A decoder that always succeeds, for the defensive-path executions. -/
def c8Deser : PartInfoPtr → ChunkCols → Except Nat DataBlock :=
  fun _ _ => .ok ⟨1, 1, none⟩

/-- A state whose part list is empty while its chunk list is not. -/
def c8State : DeserializeDataTransform :=
  { scan_progress := ⟨0, 0⟩
    input := ⟨none, false, false⟩
    output := ⟨true, [], false⟩
    output_data := none
    parts := []
    chunks := [[(0, [1])]] }

/-- A state about to pull an input unit that carries metadata of an
unrelated kind. -/
def c9State : DeserializeDataTransform :=
  { scan_progress := ⟨0, 0⟩
    input := ⟨some (.ok ⟨0, 0, some (.other 7)⟩), false, false⟩
    output := ⟨true, [], false⟩
    output_data := none
    parts := [9]
    chunks := [] }

/-- The six jemalloc statistics read by `MallocStatsTotalsTable`. -/
inductive JeStat where
  | active
  | allocated
  | retained
  | mapped
  | resident
  | metadata
deriving DecidableEq, Repr

/-- Modelled external interface of `tikv_jemalloc_ctl`: the epoch control and,
per statistic, the `mib()` lookup, the `read()` value and the `name()`
string. Reads are fallible. -/
structure JeEnv where
  epochMib : Except Nat Unit
  epochAdvance : Except Nat Nat
  mibOf : JeStat → Except Nat Unit
  readOf : JeStat → Except Nat Nat
  nameOf : JeStat → String

/-- Source type `common_expression::DataType`, reduced to the two types this table uses. -/
inductive DataType where
  | string
  | numberUInt64
deriving DecidableEq, Repr

/-- A built column value: the `String` name column or the `UInt64` value
column. -/
inductive Value where
  | strCol (names : List String)
  | u64Col (vals : List Nat)
deriving DecidableEq, Repr

/-- Source type `common_expression::Chunk`, reduced to its column sequence and row count. -/
structure Chunk where
  columns : List (Value × DataType)
  num_rows : Nat
deriving DecidableEq, Repr

/-- Source method `Chunk::new_from_sequence`. -/
def Chunk.new_from_sequence (v : List (Value × DataType)) (n : Nat) : Chunk := ⟨v, n⟩

/-- One `set_value!` read: `$stat::mib()?` then `mib.read()?`. -/
def readStat (env : JeEnv) (st : JeStat) : Except Nat Nat := do
  let _ ← env.mibOf st
  env.readOf st

/-- Source method `MallocStatsTotalsTable::build_columns`: advance the epoch, read the six
statistics in source order, and build the name/value columns; each value is
cast `as u64`. -/
def MallocStatsTotalsTable.build_columns (env : JeEnv) :
    Except Nat (List (Value × DataType)) := do
  let _ ← env.epochMib
  let _ ← env.epochAdvance
  let v1 ← readStat env .active
  let v2 ← readStat env .allocated
  let v3 ← readStat env .retained
  let v4 ← readStat env .mapped
  let v5 ← readStat env .resident
  let v6 ← readStat env .metadata
  pure
    [(Value.strCol
        [env.nameOf .active, env.nameOf .allocated, env.nameOf .retained,
         env.nameOf .mapped, env.nameOf .resident, env.nameOf .metadata],
      DataType.string),
     (Value.u64Col
        [v1 % 2 ^ 64, v2 % 2 ^ 64, v3 % 2 ^ 64, v4 % 2 ^ 64, v5 % 2 ^ 64, v6 % 2 ^ 64],
      DataType.numberUInt64)]

/-- Source function `convert_je_err`: wraps the jemalloc error into an internal error code
(opaque payloads, so the identity here). -/
def convert_je_err (e : Nat) : Nat := e

/-- Source method `MallocStatsTotalsTable::get_full_data`. -/
def MallocStatsTotalsTable.get_full_data (env : JeEnv) : Except Nat Chunk :=
  match MallocStatsTotalsTable.build_columns env with
  | .error e => .error (convert_je_err e)
  | .ok values => .ok (Chunk.new_from_sequence values 6)

/-- Concrete statistic values for evaluating the table build. -/
def c10Read : JeStat → Nat :=
  fun st =>
    match st with
    | .active => 11
    | .allocated => 22
    | .retained => 33
    | .mapped => 44
    | .resident => 55
    | .metadata => 66

/-- A concrete jemalloc environment for evaluating the table build. -/
def c10Env : JeEnv :=
  { epochMib := .ok ()
    epochAdvance := .ok 1
    mibOf := fun _ => .ok ()
    readOf := fun st => .ok (c10Read st)
    nameOf := fun st =>
      match st with
      | .active => "stats.active"
      | .allocated => "stats.allocated"
      | .retained => "stats.retained"
      | .mapped => "stats.mapped"
      | .resident => "stats.resident"
      | .metadata => "stats.metadata" }

lemma run_supply_step (deser : PartInfoPtr → ChunkCols → DataBlock) (m : Nat)
    (prog : ProgressValues) (pushed : List DataBlock) (nd : Bool) (b : Batch)
    (rest : List Batch) :
    run deser (m + 1) ⟨midState prog pushed nd [] [], b :: rest⟩
      = run deser m ⟨suppliedState prog pushed b, rest⟩ := rfl

lemma run_pull_empty (deser : PartInfoPtr → ChunkCols → DataBlock) (m : Nat)
    (prog : ProgressValues) (pushed : List DataBlock) (rest : List Batch) :
    run deser (m + 1) ⟨suppliedState prog pushed ⟨[], []⟩, rest⟩
      = run deser m ⟨midState prog pushed true [] [], rest⟩ := rfl

lemma run_pull_pop (deser : PartInfoPtr → ChunkCols → DataBlock) (m : Nat)
    (prog : ProgressValues) (pushed : List DataBlock)
    (ps : List PartInfoPtr) (p : PartInfoPtr) (cs : List ChunkCols) (c : ChunkCols)
    (rest : List Batch) :
    run deser (m + 1) ⟨suppliedState prog pushed ⟨ps ++ [p], cs ++ [c]⟩, rest⟩
      = run deser m
          ⟨postState (prog.incr (blockProg (deser p c))) pushed ps cs (deser p c), rest⟩ := by
  simp [run, DeserializeDataTransform.event, DeserializeDataTransform.process,
    suppliedState, postState, mkBatchBlock, DataBlock.take_meta, popVec,
    InputPort.has_data, InputPort.pull_data, List.getLast?_concat, List.dropLast_concat,
    ProgressValues.incr, blockProg]

lemma run_pop_step (deser : PartInfoPtr → ChunkCols → DataBlock) (m : Nat)
    (prog : ProgressValues) (pushed : List DataBlock) (nd : Bool)
    (ps : List PartInfoPtr) (p : PartInfoPtr) (cs : List ChunkCols) (c : ChunkCols)
    (rest : List Batch) :
    run deser (m + 1) ⟨midState prog pushed nd (ps ++ [p]) (cs ++ [c]), rest⟩
      = run deser m
          ⟨postState (prog.incr (blockProg (deser p c))) pushed ps cs (deser p c), rest⟩ := by
  simp [run, DeserializeDataTransform.event, DeserializeDataTransform.process,
    midState, postState, popVec, InputPort.has_data, InputPort.set_need_data,
    List.getLast?_concat, List.dropLast_concat, ProgressValues.incr, blockProg]

lemma run_push_step (deser : PartInfoPtr → ChunkCols → DataBlock) (m : Nat)
    (prog : ProgressValues) (pushed : List DataBlock)
    (ps : List PartInfoPtr) (cs : List ChunkCols) (d : DataBlock) (rest : List Batch) :
    run deser (m + 1) ⟨postState prog pushed ps cs d, rest⟩
      = run deser m ⟨midState prog (pushed ++ [d]) true ps cs, rest⟩ := rfl

lemma run_needdata_finish (deser : PartInfoPtr → ChunkCols → DataBlock) (m : Nat)
    (prog : ProgressValues) (pushed : List DataBlock) (nd : Bool) :
    run deser (m + 1) ⟨midState prog pushed nd [] [], []⟩
      = run deser m ⟨preFinal prog pushed, []⟩ := rfl

lemma run_finished (deser : PartInfoPtr → ChunkCols → DataBlock) (m : Nat)
    (prog : ProgressValues) (pushed : List DataBlock) :
    run deser (m + 1) ⟨preFinal prog pushed, []⟩ = some (finalState prog pushed) := rfl

lemma run_drain (deser : PartInfoPtr → ChunkCols → DataBlock) :
    ∀ (rcs : List ChunkCols) (rps : List PartInfoPtr)
      (prog : ProgressValues) (pushed : List DataBlock)
      (pending : List Batch) (fuel : Nat),
      rps.length = rcs.length →
      run deser (2 * rcs.length + fuel) ⟨midState prog pushed true rps.reverse rcs.reverse, pending⟩
        = run deser fuel
            ⟨midState (incrAll prog (drainB deser rps rcs))
              (pushed ++ drainB deser rps rcs) true [] [], pending⟩ := by
  intro rcs
  induction rcs with
  | nil =>
    intro rps prog pushed pending fuel h
    have hrps : rps = [] := List.length_eq_zero.mp h
    subst hrps
    simp [drainB, incrAll]
  | cons c rcs ih =>
    intro rps prog pushed pending fuel h
    match rps with
    | p :: rps =>
      have hlen : rps.length = rcs.length := by simpa using h
      have harith : 2 * (c :: rcs).length + fuel = 2 * rcs.length + fuel + 1 + 1 := by
        simp [List.length_cons]; omega
      rw [harith, List.reverse_cons, List.reverse_cons, run_pop_step, run_push_step]
      have hd := ih rps (prog.incr (blockProg (deser p c))) (pushed ++ [deser p c])
        pending fuel hlen
      rw [hd]
      simp [drainB, incrAll, blockProg]

lemma run_all (deser : PartInfoPtr → ChunkCols → DataBlock) :
    ∀ (pending : List Batch), (∀ b ∈ pending, b.part.length = b.chunks.length) →
      ∀ (prog : ProgressValues) (pushed : List DataBlock) (nd : Bool),
      ∃ n, run deser n ⟨midState prog pushed nd [] [], pending⟩
        = some (finalState (incrAll prog (allBlocks deser pending))
            (pushed ++ allBlocks deser pending)) := by
  intro pending
  induction pending with
  | nil =>
    intro _ prog pushed nd
    refine ⟨2, ?_⟩
    rw [show (2 : Nat) = 1 + 1 from rfl, run_needdata_finish, run_finished]
    simp [allBlocks, incrAll]
  | cons b rest ih =>
    intro hwf prog pushed nd
    have hb : b.part.length = b.chunks.length := hwf b (by simp)
    have hrest : ∀ x ∈ rest, x.part.length = x.chunks.length := by
      intro x hx; exact hwf x (by simp [hx])
    obtain ⟨bp, bc⟩ := b
    change bp.length = bc.length at hb
    rcases List.eq_nil_or_concat bc with hbc | ⟨cs, c, hcs⟩
    · subst hbc
      have hbp : bp = [] := List.length_eq_zero.mp (by simpa using hb)
      subst hbp
      obtain ⟨n, hn⟩ := ih hrest prog pushed true
      refine ⟨n + 1 + 1, ?_⟩
      rw [run_supply_step, run_pull_empty, hn]
      simp [allBlocks, batchBlocks]
    · rw [List.concat_eq_append] at hcs
      subst hcs
      have hbp : bp ≠ [] := by
        intro hnil
        rw [hnil] at hb
        simp at hb
      rcases List.eq_nil_or_concat bp with h0 | ⟨ps, p, hps⟩
      · exact absurd h0 hbp
      rw [List.concat_eq_append] at hps
      subst hps
      have hlen : ps.length = cs.length := by simpa using hb
      obtain ⟨n, hn⟩ := ih hrest
        (incrAll (prog.incr (blockProg (deser p c))) (drainB deser ps.reverse cs.reverse))
        ((pushed ++ [deser p c]) ++ drainB deser ps.reverse cs.reverse) true
      refine ⟨2 * cs.length + n + 1 + 1 + 1, ?_⟩
      rw [run_supply_step, run_pull_pop, run_push_step]
      have hd := run_drain deser cs.reverse ps.reverse
        (prog.incr (blockProg (deser p c))) (pushed ++ [deser p c]) rest n
        (by simpa using hlen)
      rw [List.reverse_reverse, List.reverse_reverse, List.length_reverse] at hd
      rw [hd, hn]
      have hblocks : batchBlocks deser ⟨ps ++ [p], cs ++ [c]⟩
          = deser p c :: drainB deser ps.reverse cs.reverse := by
        simp [batchBlocks, drainB, List.reverse_append]
      simp [allBlocks, hblocks, incrAll, List.foldl_append, blockProg]

lemma event_scan_progress (s : DeserializeDataTransform) :
    (s.event).2.scan_progress = s.scan_progress := by
  unfold DeserializeDataTransform.event
  dsimp only
  repeat' split
  all_goals rfl

lemma incrAll_eq (l : List DataBlock) : ∀ p : ProgressValues,
    incrAll p l =
      ⟨p.rows + (l.map (fun d => d.num_rows)).sum,
       p.bytes + (l.map (fun d => d.memory_size)).sum⟩ := by
  induction l with
  | nil => intro p; simp [incrAll]
  | cons d l ih =>
    intro p
    have hstep : incrAll p (d :: l) = incrAll (p.incr (blockProg d)) l := rfl
    rw [hstep, ih]
    simp [ProgressValues.incr, blockProg, Nat.add_assoc]

lemma batchBlocks_length (deser : PartInfoPtr → ChunkCols → DataBlock) (b : Batch)
    (h : b.part.length = b.chunks.length) :
    (batchBlocks deser b).length = b.part.length := by
  simp [batchBlocks, h]

lemma allBlocks_length (deser : PartInfoPtr → ChunkCols → DataBlock) :
    ∀ batches : List Batch, (∀ b ∈ batches, b.part.length = b.chunks.length) →
      (allBlocks deser batches).length = (batches.map (fun b => b.part.length)).sum := by
  intro batches
  induction batches with
  | nil => intro _; simp [allBlocks]
  | cons b rest ih =>
    intro h
    have hb : (batchBlocks deser b).length = b.part.length :=
      batchBlocks_length deser b (h b (by simp))
    have hrest := ih fun x hx => h x (by simp [hx])
    simp [allBlocks] at hrest ⊢
    simp [hb, hrest]

example :
    run (fun p _ => ⟨p, p, none⟩) 9 ⟨stInit, [⟨[1, 2], [[(0, [7])], [(1, [8])]]⟩]⟩ =
      some
        { scan_progress := ⟨3, 3⟩
          input := ⟨none, true, true⟩
          output := ⟨true, [⟨2, 2, none⟩, ⟨1, 1, none⟩], true⟩
          output_data := none
          parts := []
          chunks := [] } := by
  decide

/-- C1: for every sequence of well-formed input batches (part and chunk lists
equally long) driven to completion under the documented event/process
protocol with all decodes succeeding, the blocks the stage pushes to its
output are exactly the decodes of the received part descriptors — one block
per descriptor, each decoded once (LIFO within a batch) — so the number of
pushed blocks equals the total number of part descriptors received; no part
is dropped and none is decoded twice. -/
theorem C1_blocks_match_parts (deser : PartInfoPtr → ChunkCols → DataBlock)
    (batches : List Batch)
    (hwf : ∀ b ∈ batches, b.part.length = b.chunks.length) :
    ∃ n final, run deser n ⟨stInit, batches⟩ = some final ∧
      final.output.pushed = allBlocks deser batches ∧
      final.output.pushed.length = (batches.map (fun b => b.part.length)).sum := by
  obtain ⟨n, hn⟩ := run_all deser batches hwf ⟨0, 0⟩ [] false
  refine ⟨n, _, hn, ?_, ?_⟩
  · simp [finalState]
  · simp [finalState, allBlocks_length deser batches hwf]

/-- C1 witness: the theorem evaluated on a concrete three-batch sequence. -/
theorem C1_blocks_match_parts_witness :
    (∀ b ∈ c1Batches, b.part.length = b.chunks.length) ∧
    (∃ n final, run c1Deser n ⟨stInit, c1Batches⟩ = some final ∧
      final.output.pushed = allBlocks c1Deser c1Batches ∧
      final.output.pushed.length = (c1Batches.map (fun b => b.part.length)).sum) :=
  ⟨by decide, C1_blocks_match_parts c1Deser c1Batches (by decide)⟩

/-- C2: `event` answers Sync only when no decoded block is buffered —
`output_data` is empty both before and after such a call (a buffered block is
always pushed, in precedence step 3, before any new decode is scheduled), so
the block `process` then stores never overwrites an unpushed block. -/
theorem C2_sync_only_when_no_buffered_block (s st : DeserializeDataTransform)
    (h : s.event = (EventResult.ok Event.Sync, st)) :
    s.output_data = none ∧ st.output_data = none := by
  unfold DeserializeDataTransform.event at h
  dsimp only at h
  repeat' split at h
  all_goals try injection h with h1 h2
  all_goals try subst h2
  all_goals simp_all [InputPort.set_need_data]

/-- C2 witness: the Sync-invariant evaluated at a concrete pending state. -/
theorem C2_sync_only_when_no_buffered_block_witness :
    c2State.event = (EventResult.ok Event.Sync, { c2State with input := ⟨none, true, false⟩ }) ∧
    (c2State.output_data = none ∧
      ({ c2State with input := ⟨none, true, false⟩ } : DeserializeDataTransform).output_data = none) :=
  ⟨by decide,
    C2_sync_only_when_no_buffered_block c2State { c2State with input := ⟨none, true, false⟩ }
      (by decide)⟩

/-- C5: progress accounting is exact and confined to `process`: `event` never
changes the progress totals, and a completed run accumulates row/byte totals
exactly equal to the sums over all successfully decoded blocks — one
increment per decoded block. -/
theorem C5_progress_exact (deser : PartInfoPtr → ChunkCols → DataBlock)
    (batches : List Batch)
    (hwf : ∀ b ∈ batches, b.part.length = b.chunks.length) :
    (∀ s : DeserializeDataTransform, (s.event).2.scan_progress = s.scan_progress) ∧
    ∃ n final, run deser n ⟨stInit, batches⟩ = some final ∧
      final.scan_progress.rows = ((allBlocks deser batches).map (fun d => d.num_rows)).sum ∧
      final.scan_progress.bytes =
        ((allBlocks deser batches).map (fun d => d.memory_size)).sum := by
  refine ⟨event_scan_progress, ?_⟩
  obtain ⟨n, hn⟩ := run_all deser batches hwf ⟨0, 0⟩ [] false
  refine ⟨n, _, hn, ?_, ?_⟩ <;> simp [finalState, incrAll_eq]

/-- C5 witness: the progress bookkeeping evaluated on a concrete run. -/
theorem C5_progress_exact_witness :
    (∀ b ∈ c1Batches, b.part.length = b.chunks.length) ∧
    ((∀ s : DeserializeDataTransform, (s.event).2.scan_progress = s.scan_progress) ∧
     ∃ n final, run c1Deser n ⟨stInit, c1Batches⟩ = some final ∧
       final.scan_progress.rows = ((allBlocks c1Deser c1Batches).map (fun d => d.num_rows)).sum ∧
       final.scan_progress.bytes =
         ((allBlocks c1Deser c1Batches).map (fun d => d.memory_size)).sum) :=
  ⟨by decide, C5_progress_exact c1Deser c1Batches (by decide)⟩

/-- C3 counterexample: a state where the input port is finished, no pending
chunks and no buffered block remain, yet the output port cannot accept a
push: `event` reports NeedConsume, not Finished, and does not finish the
output port — refuting the claim's second conditional as stated. -/
theorem C3_cex :
    c3State.input.finished = true ∧ c3State.chunks = [] ∧ c3State.output_data = none ∧
    (c3State.event).1 = EventResult.ok Event.NeedConsume ∧
    ¬((c3State.event).1 = EventResult.ok Event.Finished ∧
      ((c3State.event).2).output.finished = true) := by decide

/-- C3 (amended): whenever `event` returns Finished both ports end finished;
if the output port is finished, `event` finishes the input port and returns
Finished without decode work; and if the output port is unfinished, can
accept a push, no block is buffered, no chunks are pending, the input has no
data and the input port is finished, `event` finishes the output port and
returns Finished. -/
theorem C3_finished_both_ports :
    (∀ s st : DeserializeDataTransform, ∀ r, s.event = (r, st) →
      r = EventResult.ok Event.Finished →
      st.input.finished = true ∧ st.output.finished = true) ∧
    (∀ s : DeserializeDataTransform, s.output.finished = true →
      s.event = (EventResult.ok Event.Finished, { s with input := s.input.finish })) ∧
    (∀ s : DeserializeDataTransform, s.output.finished = false →
      s.output.can_push = true → s.output_data = none → s.chunks = [] →
      s.input.data = none → s.input.finished = true →
      s.event = (EventResult.ok Event.Finished, { s with output := s.output.finish })) := by
  refine ⟨?_, ?_, ?_⟩
  · intro s st r h hr
    subst hr
    unfold DeserializeDataTransform.event at h
    dsimp only at h
    repeat' split at h
    all_goals try injection h with h1 h2
    all_goals try subst h2
    all_goals simp_all [InputPort.finish, OutputPort.finish]
  · intro s h
    simp [DeserializeDataTransform.event, h]
  · intro s h1 h2 h3 h4 h5 h6
    simp [DeserializeDataTransform.event, InputPort.has_data, h1, h2, h3, h4, h5, h6]

/-- C3 witness: the amended termination case evaluated at a concrete state. -/
theorem C3_finished_both_ports_witness :
    (c3Good.output.finished = false ∧ c3Good.output.can_push = true ∧
     c3Good.output_data = none ∧ c3Good.chunks = [] ∧
     c3Good.input.data = none ∧ c3Good.input.finished = true) ∧
    c3Good.event = (EventResult.ok Event.Finished, { c3Good with output := c3Good.output.finish }) :=
  ⟨by decide,
    C3_finished_both_ports.2.2 c3Good (by decide) (by decide) (by decide) (by decide)
      (by decide) (by decide)⟩

/-- C4 counterexample: pending chunks remain but the output port cannot
accept a push: `event` reports NeedConsume, not Sync — refuting the claim's
"returns Sync until the current batch is fully drained" as an unconditional
statement. -/
theorem C4_cex :
    c4State.chunks ≠ [] ∧ (c4State.event).1 = EventResult.ok Event.NeedConsume ∧
    (c4State.event).1 ≠ EventResult.ok Event.Sync := by decide

/-- C4 (amended): while the pending chunk list is non-empty, `event` never
pulls an input unit and never changes the pending part/chunk lists (the
batch is drained by pairwise consumption before a new one is accepted); and
it returns Sync whenever, additionally, the output port is unfinished, can
accept a push, and no decoded block is buffered. -/
theorem C4_one_batch_at_a_time :
    (∀ s st : DeserializeDataTransform, ∀ r, s.chunks ≠ [] → s.event = (r, st) →
      st.parts = s.parts ∧ st.chunks = s.chunks ∧ st.input.data = s.input.data) ∧
    (∀ s : DeserializeDataTransform, s.chunks ≠ [] → s.output.finished = false →
      s.output.can_push = true → s.output_data = none →
      (s.event).1 = EventResult.ok Event.Sync) := by
  constructor
  · intro s st r hne h
    unfold DeserializeDataTransform.event at h
    dsimp only at h
    repeat' split at h
    all_goals try injection h with h1 h2
    all_goals try subst h2
    all_goals simp_all [InputPort.finish, InputPort.set_need_data, InputPort.set_not_need_data,
      OutputPort.push_data, OutputPort.finish, List.isEmpty_iff]
  · intro s h1 h2 h3 h4
    have h5 : s.chunks.isEmpty = false := by
      simp [List.isEmpty_eq_false]
      exact h1
    simp [DeserializeDataTransform.event, h2, h3, h4, h5]

/-- C4 witness: the amended Sync case evaluated at a concrete ready state
with one pending pair. -/
theorem C4_one_batch_at_a_time_witness :
    (c4Good.chunks ≠ [] ∧ c4Good.output.finished = false ∧
     c4Good.output.can_push = true ∧ c4Good.output_data = none) ∧
    (c4Good.event).1 = EventResult.ok Event.Sync :=
  ⟨by decide,
    C4_one_batch_at_a_time.2 c4Good (by decide) (by decide) (by decide) (by decide)⟩

/-- C6: `process` consumes part/chunk pairs in LIFO order from the tails of
the two lists: on a state holding parts P1,P2 and chunk sets C1,C2, the
first `process` call decodes (P2,C2) — storing its block and adding its
progress delta — and, once that block has been pushed (the buffer cleared),
the second call decodes (P1,C1); two blocks are emitted and two progress
deltas added. -/
theorem C6_lifo_order (deser : PartInfoPtr → ChunkCols → Except Nat DataBlock)
    (s : DeserializeDataTransform) (p1 p2 : PartInfoPtr) (c1 c2 : ChunkCols)
    (b1 b2 : DataBlock)
    (hp : s.parts = [p1, p2]) (hc : s.chunks = [c1, c2])
    (h2 : deser p2 c2 = .ok b2) (h1 : deser p1 c1 = .ok b1) :
    DeserializeDataTransform.process deser s =
      (.ok (), { s with
                  parts := [p1]
                  chunks := [c1]
                  scan_progress := s.scan_progress.incr (blockProg b2)
                  output_data := some b2 }) ∧
    DeserializeDataTransform.process deser
        { s with
            parts := [p1]
            chunks := [c1]
            scan_progress := s.scan_progress.incr (blockProg b2)
            output_data := none } =
      (.ok (), { s with
                  parts := []
                  chunks := []
                  scan_progress := (s.scan_progress.incr (blockProg b2)).incr (blockProg b1)
                  output_data := some b1 }) := by
  constructor <;>
    simp [DeserializeDataTransform.process, popVec, hp, hc, h1, h2, blockProg]

/-- C6 witness: Scenario A evaluated at a concrete two-pair state. -/
theorem C6_lifo_order_witness :
    (c6State.parts = [1, 2] ∧ c6State.chunks = [[(0, [7])], [(1, [8])]] ∧
     c8Deser 2 [(1, [8])] = .ok ⟨1, 1, none⟩ ∧ c8Deser 1 [(0, [7])] = .ok ⟨1, 1, none⟩) ∧
    (DeserializeDataTransform.process c8Deser c6State =
      (.ok (), { c6State with
                  parts := [1]
                  chunks := [[(0, [7])]]
                  scan_progress := c6State.scan_progress.incr (blockProg ⟨1, 1, none⟩)
                  output_data := some ⟨1, 1, none⟩ }) ∧
     DeserializeDataTransform.process c8Deser
        { c6State with
            parts := [1]
            chunks := [[(0, [7])]]
            scan_progress := c6State.scan_progress.incr (blockProg ⟨1, 1, none⟩)
            output_data := none } =
      (.ok (), { c6State with
                  parts := []
                  chunks := []
                  scan_progress :=
                    (c6State.scan_progress.incr (blockProg ⟨1, 1, none⟩)).incr
                      (blockProg ⟨1, 1, none⟩)
                  output_data := some ⟨1, 1, none⟩ })) :=
  ⟨by decide,
    C6_lifo_order c8Deser c6State 1 2 [(0, [7])] [(1, [8])] ⟨1, 1, none⟩ ⟨1, 1, none⟩
      (by decide) (by decide) (by decide) (by decide)⟩

/-- C7: if the decoder fails on the popped part/chunk pair, `process`
returns that error, leaves `output_data` as it was (so it stays empty) and
adds no progress delta; the decode is not retried inside the stage
(`process` simply propagates the error). -/
theorem C7_decode_failure (deser : PartInfoPtr → ChunkCols → Except Nat DataBlock)
    (s : DeserializeDataTransform) (ps : List PartInfoPtr) (p : PartInfoPtr)
    (cs : List ChunkCols) (c : ChunkCols) (e : Nat)
    (hp : s.parts = ps ++ [p]) (hc : s.chunks = cs ++ [c])
    (hd : deser p c = .error e) :
    (DeserializeDataTransform.process deser s).1 = .error e ∧
    (DeserializeDataTransform.process deser s).2.output_data = s.output_data ∧
    (DeserializeDataTransform.process deser s).2.scan_progress = s.scan_progress := by
  simp [DeserializeDataTransform.process, popVec, hp, hc, hd,
    List.getLast?_concat, List.dropLast_concat]

/-- C7 witness: the failing decoder evaluated at a concrete state whose tail
pair is the failing part 2. -/
theorem C7_decode_failure_witness :
    (c6State.parts = [1] ++ [2] ∧ c6State.chunks = [[(0, [7])]] ++ [[(1, [8])]] ∧
     c7Deser 2 [(1, [8])] = .error 42) ∧
    ((DeserializeDataTransform.process c7Deser c6State).1 = .error 42 ∧
     (DeserializeDataTransform.process c7Deser c6State).2.output_data = c6State.output_data ∧
     (DeserializeDataTransform.process c7Deser c6State).2.scan_progress =
       c6State.scan_progress) :=
  ⟨by decide,
    C7_decode_failure c7Deser c6State [1] 2 [[(0, [7])]] [(1, [8])] 42
      (by decide) (by decide) (by decide)⟩

/-- C8 counterexample: with an empty part list but a non-empty chunk list,
`process` still pops the chunk list — its last element is silently dropped —
so the state does not stay unchanged, refuting the claim's "leaves the
stage's state (including both pending lists) unchanged". -/
theorem C8_cex :
    (c8State.parts = [] ∨ c8State.chunks = []) ∧
    (DeserializeDataTransform.process c8Deser c8State).1 = .ok () ∧
    (DeserializeDataTransform.process c8Deser c8State).2.chunks ≠ c8State.chunks := by
  decide

lemma process_empty_eq (deser : PartInfoPtr → ChunkCols → Except Nat DataBlock)
    (s : DeserializeDataTransform) (h : s.parts = [] ∨ s.chunks = []) :
    DeserializeDataTransform.process deser s =
      (.ok (), { s with parts := s.parts.dropLast, chunks := s.chunks.dropLast }) := by
  rcases h with h | h
  · rcases hc : s.chunks.getLast? with _ | c <;>
      simp [DeserializeDataTransform.process, popVec, h, hc]
  · rcases hp : s.parts.getLast? with _ | p <;>
      simp [DeserializeDataTransform.process, popVec, h, hp]

/-- C8 (amended): if either pending list is empty when `process` is invoked,
it decodes nothing: it returns Ok, records no progress, stores no output
block and leaves ports and buffer untouched — but each pending list is still
popped (`dropLast`), so a non-empty other list loses its last element; only
when both lists are empty is the state fully unchanged. -/
theorem C8_empty_guard (deser : PartInfoPtr → ChunkCols → Except Nat DataBlock)
    (s : DeserializeDataTransform) (h : s.parts = [] ∨ s.chunks = []) :
    (DeserializeDataTransform.process deser s).1 = .ok () ∧
    (DeserializeDataTransform.process deser s).2.output_data = s.output_data ∧
    (DeserializeDataTransform.process deser s).2.scan_progress = s.scan_progress ∧
    (DeserializeDataTransform.process deser s).2.input = s.input ∧
    (DeserializeDataTransform.process deser s).2.output = s.output ∧
    (DeserializeDataTransform.process deser s).2.parts = s.parts.dropLast ∧
    (DeserializeDataTransform.process deser s).2.chunks = s.chunks.dropLast ∧
    (s.parts = [] → s.chunks = [] → (DeserializeDataTransform.process deser s).2 = s) := by
  rw [process_empty_eq deser s h]
  refine ⟨rfl, rfl, rfl, rfl, rfl, rfl, rfl, ?_⟩
  intro h1 h2
  cases s
  simp_all

/-- C8 witness: the defensive path evaluated at the state whose part list is
empty but whose chunk list is not. -/
theorem C8_empty_guard_witness :
    (c8State.parts = [] ∨ c8State.chunks = []) ∧
    ((DeserializeDataTransform.process c8Deser c8State).1 = .ok () ∧
     (DeserializeDataTransform.process c8Deser c8State).2.output_data = c8State.output_data ∧
     (DeserializeDataTransform.process c8Deser c8State).2.scan_progress =
       c8State.scan_progress ∧
     (DeserializeDataTransform.process c8Deser c8State).2.input = c8State.input ∧
     (DeserializeDataTransform.process c8Deser c8State).2.output = c8State.output ∧
     (DeserializeDataTransform.process c8Deser c8State).2.parts = c8State.parts.dropLast ∧
     (DeserializeDataTransform.process c8Deser c8State).2.chunks = c8State.chunks.dropLast ∧
     (c8State.parts = [] → c8State.chunks = [] →
       (DeserializeDataTransform.process c8Deser c8State).2 = c8State)) :=
  ⟨by decide, C8_empty_guard c8Deser c8State (by decide)⟩

/-- C9: when `event` pulls an input unit whose attached metadata is missing
or not of the `DataSourceMeta` kind, it does not return normally — the
branch aborts via the `unreachable!()` panic — and the pending part/chunk
lists are left unmodified. -/
theorem C9_bad_meta_panics (s : DeserializeDataTransform) (blk : DataBlock)
    (h1 : s.output.finished = false) (h2 : s.output.can_push = true)
    (h3 : s.output_data = none) (h4 : s.chunks = [])
    (h5 : s.input.data = some (.ok blk))
    (hm : blk.meta = none ∨ ∃ k, blk.meta = some (.other k)) :
    (s.event).1 = EventResult.panicked ∧
    (s.event).2.parts = s.parts ∧ (s.event).2.chunks = s.chunks := by
  rcases hm with hm | ⟨k, hm⟩ <;>
    simp [DeserializeDataTransform.event, DataBlock.take_meta, InputPort.has_data,
      InputPort.pull_data, h1, h2, h3, h4, h5, hm]

/-- C9 witness: the panic path evaluated at a state pulling a unit tagged
with metadata of an unrelated kind. -/
theorem C9_bad_meta_panics_witness :
    (c9State.output.finished = false ∧ c9State.output.can_push = true ∧
     c9State.output_data = none ∧ c9State.chunks = [] ∧
     c9State.input.data = some (.ok ⟨0, 0, some (.other 7)⟩) ∧
     (⟨0, 0, some (.other 7)⟩ : DataBlock).meta = some (.other 7)) ∧
    ((c9State.event).1 = EventResult.panicked ∧
     (c9State.event).2.parts = c9State.parts ∧ (c9State.event).2.chunks = c9State.chunks) :=
  ⟨by decide,
    C9_bad_meta_panics c9State ⟨0, 0, some (.other 7)⟩ (by decide) (by decide) (by decide)
      (by decide) (by decide) (Or.inr ⟨7, by decide⟩)⟩

/-- C10: whenever every jemalloc statistic read succeeds,
`MallocStatsTotalsTable::get_full_data` returns a chunk of exactly 6 rows
with two columns — a String name column and a UInt64 value column — the name
column holding, in order, the jemalloc statistic names for active,
allocated, retained, mapped, resident and metadata, each paired with the
value read for that statistic. -/
theorem C10_malloc_stats_chunk (env : JeEnv) (a : Nat) (v : JeStat → Nat)
    (he : env.epochMib = .ok ()) (ha : env.epochAdvance = .ok a)
    (hm : ∀ st, env.mibOf st = .ok ()) (hr : ∀ st, env.readOf st = .ok (v st))
    (hb : ∀ st, v st < 2 ^ 64) :
    MallocStatsTotalsTable.get_full_data env =
      .ok { columns :=
              [(Value.strCol
                  [env.nameOf .active, env.nameOf .allocated, env.nameOf .retained,
                   env.nameOf .mapped, env.nameOf .resident, env.nameOf .metadata],
                DataType.string),
               (Value.u64Col
                  [v .active, v .allocated, v .retained, v .mapped, v .resident, v .metadata],
                DataType.numberUInt64)]
            num_rows := 6 } := by
  simp [MallocStatsTotalsTable.get_full_data, MallocStatsTotalsTable.build_columns,
    readStat, Chunk.new_from_sequence, he, ha, hm, hr,
    Except.instMonad, Except.bind, Except.pure,
    Nat.mod_eq_of_lt (hb .active), Nat.mod_eq_of_lt (hb .allocated),
    Nat.mod_eq_of_lt (hb .retained), Nat.mod_eq_of_lt (hb .mapped),
    Nat.mod_eq_of_lt (hb .resident), Nat.mod_eq_of_lt (hb .metadata)]
  exact ⟨hb _, hb _, hb _, hb _, hb _, hb _⟩

/-- C10 witness: the table build evaluated on a concrete environment. -/
theorem C10_malloc_stats_chunk_witness :
    (c10Env.epochMib = .ok () ∧ c10Env.epochAdvance = .ok 1 ∧
     (∀ st, c10Env.mibOf st = .ok ()) ∧ (∀ st, c10Env.readOf st = .ok (c10Read st)) ∧
     (∀ st, c10Read st < 2 ^ 64)) ∧
    MallocStatsTotalsTable.get_full_data c10Env =
      .ok { columns :=
              [(Value.strCol
                  [c10Env.nameOf .active, c10Env.nameOf .allocated, c10Env.nameOf .retained,
                   c10Env.nameOf .mapped, c10Env.nameOf .resident, c10Env.nameOf .metadata],
                DataType.string),
               (Value.u64Col
                  [c10Read .active, c10Read .allocated, c10Read .retained,
                   c10Read .mapped, c10Read .resident, c10Read .metadata],
                DataType.numberUInt64)]
            num_rows := 6 } :=
  ⟨⟨rfl, rfl, fun st => rfl, fun st => rfl, fun st => by cases st <;> decide⟩,
    C10_malloc_stats_chunk c10Env 1 c10Read rfl rfl (fun st => rfl) (fun st => rfl)
      (fun st => by cases st <;> decide)⟩
